import Mathlib

/-!
Verification of the chapter-crawling core of `novel_crawler.py`.

Strings are modelled as `List Char`.  Each definition embeds one Python
function (or the deterministic tail of one), named after its source symbol
where Lean allows.  Regular-expression searches are translated into
executable scanners whose doc comments record the pattern and the
backtracking semantics they implement.
-/

namespace NovelCrawler

/-- The whitespace test used by Python `str.strip` and the regex class `\s`
(ASCII part; exotic Unicode spaces are not used by any input considered here). -/
def pySpace (c : Char) : Bool :=
  c = ' ' || c = '\t' || c = '\n' || c = '\r' || c = '\x0b' || c = '\x0c'

/-- Python `str.strip()`: remove leading and trailing whitespace. -/
def pyStrip (l : List Char) : List Char :=
  ((l.dropWhile pySpace).reverse.dropWhile pySpace).reverse

/-- Python substring test `w in t` (for nonempty `w` this is list-infix). -/
def containsSub (t w : List Char) : Bool :=
  t.tails.any (fun s => w.isPrefixOf s)

/-- Value of a list of decimal digits, as Python `int(...)` computes it. -/
def natOfDigits (l : List Char) : Nat :=
  l.foldl (fun n c => n * 10 + (c.toNat - '0'.toNat)) 0

/-! ## `extract_chapter_number` (novel_crawler.py lines 276-314) -/

/-- The character class `[一二三四五六七八九十百千万零\d]` of the marker regex. -/
def inMarkerCls (c : Char) : Bool :=
  c.isDigit || c = '一' || c = '二' || c = '三' || c = '四' || c = '五' ||
  c = '六' || c = '七' || c = '八' || c = '九' || c = '十' || c = '百' ||
  c = '千' || c = '万' || c = '零'

/-- The `ch_num_map` dictionary of CJK numeral values. -/
def chNumMap (c : Char) : Option Nat :=
  if c = '一' then some 1 else if c = '二' then some 2 else
  if c = '三' then some 3 else if c = '四' then some 4 else
  if c = '五' then some 5 else if c = '六' then some 6 else
  if c = '七' then some 7 else if c = '八' then some 8 else
  if c = '九' then some 9 else if c = '十' then some 10 else
  if c = '百' then some 100 else if c = '千' then some 1000 else
  if c = '万' then some 10000 else if c = '零' then some 0 else none

/-- Group of the first match of `re.search(r'第([一二三四五六七八九十百千万零\d]+)章', title)`.
A match at a position needs `第`, then a nonempty greedy run of class characters,
then `章`; backtracking inside the run never helps because no class character is
`章`, so only the maximal run can be followed by `章`.  The scan is leftmost. -/
def markerGroup : List Char → Option (List Char)
  | [] => none
  | c :: rest =>
    if c = '第' then
      if !(rest.takeWhile inMarkerCls).isEmpty &&
          ((rest.dropWhile inMarkerCls).head? == some '章') then
        some (rest.takeWhile inMarkerCls)
      else markerGroup rest
    else markerGroup rest

/-- Group of the first match of `re.search(r'(\d+)[章节]', title)`: the leftmost
digit run whose maximal extent is directly followed by `章` or `节` (a start
inside a run sees the same following character, so scanning every position is
equivalent to scanning run starts). -/
def digitsBeforeZhang : List Char → Option (List Char)
  | [] => none
  | c :: rest =>
    if c.isDigit &&
        (match ((c :: rest).dropWhile Char.isDigit).head? with
          | some d => d = '章' || d = '节'
          | none => false) then
      some ((c :: rest).takeWhile Char.isDigit)
    else digitsBeforeZhang rest

/-- Class `[\s\d\.]` of the anchored leading-number regex. -/
def inClsA (c : Char) : Bool := pySpace c || c.isDigit || c = '.'

/-- Class `[\s\.\:]` of the anchored leading-number regex. -/
def inClsB (c : Char) : Bool := pySpace c || c = '.' || c = ':'

/-- At one position: `(\d+)[\s\.\:]`, i.e. a nonempty digit run directly followed
by a class-B character (shortening the greedy `\d+` never helps because the
following character would be a digit, which is not in class B). -/
def tryLeadingAt (l : List Char) : Option (List Char) :=
  if !(l.takeWhile Char.isDigit).isEmpty &&
      (match (l.dropWhile Char.isDigit).head? with
        | some d => inClsB d
        | none => false) then
    some (l.takeWhile Char.isDigit)
  else none

/-- Group of `re.search(r'^[\s\d\.]*(\d+)[\s\.\:]', title)`.  The greedy prefix
`[\s\d\.]*` tries the longest class-A prefix first and gives characters back one
at a time, so the match position is the LARGEST offset within the class-A prefix
at which `(\d+)[\s\.\:]` succeeds; hence recursion tries deeper offsets first.
(For a title like `12. x` this yields the group `2`, exactly as Python does.) -/
def leadingNumGroup : List Char → Option (List Char)
  | [] => none
  | c :: rest =>
    if inClsA c then
      match leadingNumGroup rest with
      | some g => some g
      | none => tryLeadingAt (c :: rest)
    else tryLeadingAt (c :: rest)

/-- `len(num_str) == 1 and num_str in ch_num_map` branch. -/
def singleCjk : List Char → Option Nat
  | [c] => chNumMap c
  | _ => none

/-- `len(num_str) == 2 and num_str[0] == '十' and num_str[1] in ch_num_map` branch. -/
def tenCjk : List Char → Option Nat
  | [a, c] => if a = '十' then (chNumMap c).map (fun v => 10 + v) else none
  | _ => none

/-- `extract_chapter_number(title)`: the three regex patterns in source order,
then the CJK interpretation of the `第X章` group (Arabic digits, single mapped
numeral, `十`+numeral, fallback 999), else `None`. -/
def extract_chapter_number (title : List Char) : Option Nat :=
  match markerGroup title with
  | some g =>
    if g.all Char.isDigit then some (natOfDigits g)
    else
      match singleCjk g with
      | some v => some v
      | none =>
        match tenCjk g with
        | some v => some v
        | none => some 999
  | none =>
    match digitsBeforeZhang title with
    | some ds => some (natOfDigits ds)
    | none =>
      match leadingNumGroup title with
      | some ds => some (natOfDigits ds)
      | none => none

/-! ## Chapter candidates and URL ordinals -/

/-- A chapter candidate as built by `crawl_index_page`: the dict
`{"title": ..., "url": ...}`. -/
structure Chapter where
  title : List Char
  url : List Char
deriving DecidableEq, Repr

/-- `l` has the shape `ds ++ ".html"` with `ds` a nonempty digit run:
the part of the patterns `/(\d+)\.html$` and `/\d+\.html$` after the slash. -/
def digitsHtmlEnd (l : List Char) : Bool :=
  !(l.takeWhile Char.isDigit).isEmpty && l.dropWhile Char.isDigit == ".html".toList

/-- Group of `re.search(r'/(\d+)\.html$', url)` as a number: the slash of any
match is followed only by digits and `.html` up to the end of the string, so at
most one slash position can match and the scan finds it. -/
def urlTailNum : List Char → Option Nat
  | [] => none
  | c :: rest =>
    if c = '/' && digitsHtmlEnd rest then some (natOfDigits (rest.takeWhile Char.isDigit))
    else urlTailNum rest

/-- Structural prefix test on character lists. -/
def isPrefixChars : List Char → List Char → Bool
  | [], _ => true
  | _ :: _, [] => false
  | p :: ps, c :: cs => p == c && isPrefixChars ps cs

/-- Python `url.endswith(s)`. -/
def listEndsWith (l s : List Char) : Bool :=
  isPrefixChars s.reverse l.reverse

/-- `is_directory_page(url)` (novel_crawler.py lines 929-939). -/
def is_directory_page (url : List Char) : Bool :=
  if listEndsWith url ['/'] || !listEndsWith url ".html".toList then true
  else if (urlTailNum url).isSome then false
  else true

/-- The final path segment of a URL in the sense of the specification: the part
after the last `/`, or the whole string when no `/` occurs. -/
def afterLastSlash : List Char → List Char
  | [] => []
  | c :: rest =>
    if c = '/' then (if '/' ∈ rest then afterLastSlash rest else rest)
    else (if '/' ∈ rest then afterLastSlash rest else c :: rest)

/-! ## The Chapter Ordering Engine: `process_and_sort_chapters`
(novel_crawler.py lines 316-439) -/

/-- `title = chapter.get("title", "").strip()` (line 332). -/
def stripTitle (c : Chapter) : List Char := pyStrip c.title

/-- `url_num` extracted from the candidate URL (lines 336-342). -/
def urlNumOf (c : Chapter) : Option Nat := urlTailNum c.url

/-- `chapter_num = extract_chapter_number(title)` (line 345). -/
def chapNumOf (c : Chapter) : Option Nat := extract_chapter_number (stripTitle c)

/-- The special-sequence number (lines 353-361). -/
def seqOf (c : Chapter) : Nat :=
  let t := stripTitle c
  if containsSub t "序".toList || containsSub t "前言".toList ||
      containsSub t "楔子".toList || containsSub t "简介".toList then 0
  else if urlNumOf c == some 1 || chapNumOf c == some 1 || containsSub t "第一章".toList then 1
  else if urlNumOf c == some 2 || chapNumOf c == some 2 || containsSub t "第二章".toList then 2
  else if urlNumOf c == some 3 || chapNumOf c == some 3 || containsSub t "第三章".toList then 3
  else 0

/-- Python truthiness-and-bound test `x and x < bound` on an optional number
(`None` and `0` are both falsy). -/
def optPosLt (x : Option Nat) (bound : Nat) : Bool :=
  match x with
  | some k => !(k == 0) && k < bound
  | none => false

/-- The priority score (lines 364-382). -/
def prioOf (c : Chapter) : Int :=
  let t := stripTitle c
  let u := urlNumOf c
  let n := chapNumOf c
  if u == some 1 || (containsSub t "第一章".toList && u.isNone) then 1000
  else if u == some 2 || (containsSub t "第二章".toList && u.isNone) then 900
  else if u == some 3 || (containsSub t "第三章".toList && u.isNone) then 800
  else if optPosLt u 10 then 700 - (u.getD 0 : Int)
  else if containsSub t "序".toList || containsSub t "前言".toList ||
      containsSub t "楔子".toList || containsSub t "简介".toList then 500
  else if optPosLt u 100 then 400 - (u.getD 0 : Int)
  else if optPosLt n 100 then 300 - (n.getD 0 : Int)
  else 0

/-- One entry of `chapters_with_info` (lines 385-394). -/
structure Ranked where
  original_index : Nat
  title : List Char
  url : List Char
  chapter_num : Option Nat
  url_num : Option Nat
  sequence : Nat
  priority : Int
  original : Chapter
deriving DecidableEq, Repr

/-- Build the info entry for position `i` (the body of the loop at line 330). -/
def mkRanked (i : Nat) (c : Chapter) : Ranked :=
  ⟨i, stripTitle c, c.url, chapNumOf c, urlNumOf c, seqOf c, prioOf c, c⟩

/-- `for i, chapter in enumerate(chapters)`: info entries with positions from `i`. -/
def buildRankedFrom : Nat → List Chapter → List Ranked
  | _, [] => []
  | i, c :: rest => mkRanked i c :: buildRankedFrom (i + 1) rest

/-- The full `chapters_with_info` array. -/
def buildRanked (chapters : List Chapter) : List Ranked := buildRankedFrom 0 chapters

/-- The ascending lexicographic comparison of the sort key of line 418:
`(url_num if not None else 999999, chapter_num if not None else 999999,
-priority, sequence, original_index)`, exactly as Python compares the tuples. -/
def rankLE (a b : Ranked) : Prop :=
  a.url_num.getD 999999 < b.url_num.getD 999999 ∨
  (a.url_num.getD 999999 = b.url_num.getD 999999 ∧
    (a.chapter_num.getD 999999 < b.chapter_num.getD 999999 ∨
      (a.chapter_num.getD 999999 = b.chapter_num.getD 999999 ∧
        (-a.priority < -b.priority ∨
          (-a.priority = -b.priority ∧
            (a.sequence < b.sequence ∨
              (a.sequence = b.sequence ∧ a.original_index ≤ b.original_index)))))))

instance : DecidableRel rankLE := fun a b => by unfold rankLE; infer_instance

instance : IsTotal Ranked rankLE := ⟨by intro a b; unfold rankLE; omega⟩

instance : IsTrans Ranked rankLE := ⟨by intro a b c; unfold rankLE; omega⟩

/-- `chapters_with_info.sort(key=...)` (line 418).  The key contains the distinct
`original_index`, so the sorted arrangement is unique and any correct sort —
here insertion sort — computes exactly what Python's stable sort computes. -/
def sortRanked (l : List Ranked) : List Ranked := List.insertionSort rankLE l

/-- `process_and_sort_chapters(chapters)`: early return on the empty list,
build the info array, sort it by the five-part key, return the originals. -/
def process_and_sort_chapters (chapters : List Chapter) : List Chapter :=
  if chapters.isEmpty then []
  else (sortRanked (buildRanked chapters)).map Ranked.original

/-! ## The Link Classifier: `is_likely_chapter_link`
(novel_crawler.py lines 735-761) -/

/-- The blocklist of navigational words (line 739). -/
def blockWords : List (List Char) :=
  ["登录".toList, "注册".toList, "首页".toList, "登陆".toList, "帮助".toList, "设置".toList]

/-- The special front-matter and back-matter section names (line 754). -/
def specialWords : List (List Char) :=
  ["序言".toList, "序章".toList, "前言".toList, "引言".toList,
   "楔子".toList, "尾声".toList, "后记".toList, "番外".toList]

/-- `re.search(r'第.+[章节回]', title)` succeeds: somewhere a `第` is followed by
at least one character and then one of `章节回`, with no newline in between
(`.` does not match a newline). `termSearchZhang` looks for the closing
character, stopping at a newline; `afterDiChar` requires at least one filler
character after `第`. -/
def termSearchZhang : List Char → Bool
  | [] => false
  | c :: rest =>
    if c = '章' || c = '节' || c = '回' then true
    else if c = '\n' then false
    else termSearchZhang rest

/-- See `termSearchZhang`: the part of the pattern after a `第`. -/
def afterDiChar : List Char → Bool
  | [] => false
  | c :: rest => if c = '\n' then false else termSearchZhang rest

/-- See `termSearchZhang`: the whole search for `第.+[章节回]`. -/
def hasMarkerPattern : List Char → Bool
  | [] => false
  | c :: rest => (c = '第' && afterDiChar rest) || hasMarkerPattern rest

/-- `re.search(r'^\d+\.?\s*\D+', title)` succeeds.  The optional dot and the
greedy `\s*` both backtrack to empty, and every character matched by `\.?`,
`\s*` or `\D+` is a non-digit, so the pattern succeeds exactly when the title
starts with a digit and any non-digit occurs after the leading digit run. -/
def digitStartRule (l : List Char) : Bool :=
  (match l.head? with
    | some c => c.isDigit
    | none => false) && !(l.dropWhile Char.isDigit).isEmpty

/-- `is_likely_chapter_link(title, href)`: the ordered rules, first match wins.
Reason strings follow the source (quotes dropped). -/
def is_likely_chapter_link (title href : List Char) : Bool × String :=
  let t := pyStrip title
  if blockWords.any (fun w => containsSub t w) then (false, "非章节关键词")
  else if t.length < 2 then (false, "标题过短")
  else if hasMarkerPattern t then (true, "包含第x章格式")
  else if digitStartRule t then (true, "数字开头")
  else if specialWords.any (fun w => containsSub t w) then (true, "特殊章节名")
  else if (urlTailNum href).isSome then (true, "URL格式为数字.html")
  else (false, "无匹配模式")

/-! ## The Chapter Index Resolver tail (novel_crawler.py lines 896-927)

Fetching and markup scanning (lines 601-894) are the external Page Fetcher and
Content Extractor collaborators; the resolver is embedded from the point where
the candidate list `all_chapters` has been collected.  The surrounding
`try/except` returns `None` only when the fetch machinery raises. -/

/-- The index returned by `crawl_index_page` (lines 919-923). -/
structure NovelIndex where
  novel_name : List Char
  author : List Char
  chapters : List Chapter
deriving DecidableEq, Repr

/-- Deduplication by URL preserving first occurrence (lines 897-903);
`seen` is the `unique_urls` set. -/
def dedupChapters : List Chapter → List (List Char) → List Chapter
  | [], _ => []
  | c :: rest, seen =>
    if c.url ∈ seen then dedupChapters rest seen
    else c :: dedupChapters rest (c.url :: seen)

/-- The non-exceptional tail of `crawl_index_page` given the extracted novel
name, author and collected candidate list: deduplicate, sort, wrap — it always
returns `some` index, never `none` (lines 896-923). -/
def crawl_index_page_result (novel_name author : List Char) (all_chapters : List Chapter) :
    Option NovelIndex :=
  some ⟨novel_name, author, process_and_sort_chapters (dedupChapters all_chapters [])⟩

/-- The two crawl modes of `crawl_multiple_chapters`. -/
inductive CrawlMode where
  | indexDriven (chapters : List Chapter)
  | linkedList
deriving DecidableEq, Repr

/-- Mode selection of `crawl_multiple_chapters` (lines 1001-1009 and 1058/1131):
a returned index is re-sorted and drives index mode only when its chapter list
is nonempty; otherwise the linked-list walk runs. -/
def selectMode (novel_info : Option NovelIndex) : CrawlMode :=
  match novel_info with
  | none => .linkedList
  | some ni =>
    let total := process_and_sort_chapters ni.chapters
    if total.isEmpty then .linkedList else .indexDriven total

/-! ## Chapter-content validation (novel_crawler.py lines 441-477) and
result collection (lines 1122-1125) -/

/-- The content gate of `crawl_chapter`: `if not content or
len(content.strip()) < 20: return None` — given the body text the Content
Extractor produced, the chapter yields no record unless the stripped body has at
least 20 characters.  (Record assembly and ad cleanup beyond this gate are the
external extraction collaborator.) -/
def crawl_chapter_validate (content : List Char) : Option (List Char) :=
  if content = [] ∨ (pyStrip content).length < 20 then none else some content

/-- `for result in results: if result: chapters_data.append(result)`
(lines 1122-1125): append the successful fetches to the accumulator. -/
def collectResults {α : Type} (acc : List α) : List (Option α) → List α
  | [] => acc
  | some r :: rest => collectResults (acc ++ [r]) rest
  | none :: rest => collectResults acc rest

/-! ## The linked-list walk (novel_crawler.py lines 1154-1204)

The fetch collaborator is abstracted as `site : url → Option next_url`
(`none` = the fetch of that page fails; an empty next reference models the
falsy `""` that `crawl_chapter` returns when no next link is found).  File
writing, progress saving and pacing sleeps have no effect on control flow. -/

/-- One entry of `chapters_data` as the walk uses it: the fields `url` and
`next_url` of a fetched chapter dict. -/
structure WalkEntry where
  url : List Char
  next_url : List Char
deriving DecidableEq, Repr

/-- The loop state: `current_url`, the `crawled_urls` set, `chapters_data`,
and `count`. -/
structure WalkState where
  current : List Char
  crawled : List (List Char)
  chapters : List WalkEntry
  count : Nat
deriving DecidableEq, Repr

/-- Outcome of one iteration of the `while` loop: proceed to the next
iteration, or leave the loop. -/
inductive WalkStep where
  | next (s : WalkState)
  | done (s : WalkState)
deriving DecidableEq, Repr

/-- `chapters_to_crawl = num_chapters if num_chapters > 0 else 999` (line 1136). -/
def chaptersToCrawl (num_chapters : Nat) : Nat :=
  if 0 < num_chapters then num_chapters else 999

/-- One iteration of the walk loop (lines 1154-1199): the already-crawled skip
branch follows the stored next reference; otherwise fetch, record, and stop on
a missing or self-looping next reference or one that is a directory page. -/
def walkStep (site : List Char → Option (List Char)) (budget : Nat) (s : WalkState) : WalkStep :=
  if s.count < budget then
    if s.current ∈ s.crawled then
      match (s.chapters.find? (fun e => e.url == s.current)).map WalkEntry.next_url with
      | some nxt =>
        if !nxt.isEmpty && nxt ≠ s.current then .next { s with current := nxt } else .done s
      | none => .done s
    else
      match site s.current with
      | none => .done s
      | some nxt =>
        let s' : WalkState :=
          { current := s.current, crawled := s.crawled ++ [s.current],
            chapters := s.chapters ++ [⟨s.current, nxt⟩], count := s.count + 1 }
        if nxt.isEmpty || nxt = s.current then .done s'
        else if is_directory_page nxt then .done s'
        else .next { s' with current := nxt }
  else .done s

/-- Run the walk for at most `fuel` iterations; `none` means the loop was still
running when the fuel ran out, so `(∀ fuel, walkRun … = none)` states that the
loop never terminates. -/
def walkRun (site : List Char → Option (List Char)) (budget : Nat) :
    Nat → WalkState → Option WalkState
  | 0, _ => none
  | fuel + 1, s =>
    match walkStep site budget s with
    | .done s' => some s'
    | .next s' => walkRun site budget fuel s'

/-- A three-page site whose next references form the cycle
`/1.html → /2.html → /3.html → /1.html`. -/
def cycleSite (u : List Char) : Option (List Char) :=
  if u = "/1.html".toList then some "/2.html".toList
  else if u = "/2.html".toList then some "/3.html".toList
  else if u = "/3.html".toList then some "/1.html".toList
  else none

/-! ## Chapter-level sort-key relations used to state the ordering theorems -/

/-- The first four sort-key components depend only on the candidate itself
(not on its position): ascending weak lexicographic comparison. -/
def chapLE (c d : Chapter) : Prop :=
  (urlNumOf c).getD 999999 < (urlNumOf d).getD 999999 ∨
  ((urlNumOf c).getD 999999 = (urlNumOf d).getD 999999 ∧
    ((chapNumOf c).getD 999999 < (chapNumOf d).getD 999999 ∨
      ((chapNumOf c).getD 999999 = (chapNumOf d).getD 999999 ∧
        (-prioOf c < -prioOf d ∨
          (-prioOf c = -prioOf d ∧ seqOf c ≤ seqOf d)))))

/-- Strict lexicographic comparison of the position-independent key part. -/
def chapLT (c d : Chapter) : Prop :=
  (urlNumOf c).getD 999999 < (urlNumOf d).getD 999999 ∨
  ((urlNumOf c).getD 999999 = (urlNumOf d).getD 999999 ∧
    ((chapNumOf c).getD 999999 < (chapNumOf d).getD 999999 ∨
      ((chapNumOf c).getD 999999 = (chapNumOf d).getD 999999 ∧
        (-prioOf c < -prioOf d ∨
          (-prioOf c = -prioOf d ∧ seqOf c < seqOf d)))))

/-- Two candidates carry identical position-independent key parts
(location ordinal and title ordinal compared after the 999999 sentinel
substitution, as the sort does). -/
def sameSortKey (c d : Chapter) : Prop :=
  (urlNumOf c).getD 999999 = (urlNumOf d).getD 999999 ∧
  (chapNumOf c).getD 999999 = (chapNumOf d).getD 999999 ∧
  prioOf c = prioOf d ∧ seqOf c = seqOf d

instance : IsAntisymm Chapter chapLT :=
  ⟨by intro a b h1 h2; exfalso; unfold chapLT at h1 h2; omega⟩

/-! ## Helper lemmas about the ordering engine -/

theorem process_eq (l : List Chapter) :
    process_and_sort_chapters l = (sortRanked (buildRanked l)).map Ranked.original := by
  cases l with
  | nil => rfl
  | cons c rest => rfl

theorem map_original_buildRankedFrom : ∀ (i : Nat) (l : List Chapter),
    (buildRankedFrom i l).map Ranked.original = l
  | _, [] => rfl
  | i, c :: rest => by
    simp [buildRankedFrom, mkRanked, map_original_buildRankedFrom (i + 1) rest]

theorem process_perm (l : List Chapter) : (process_and_sort_chapters l).Perm l := by
  rw [process_eq]
  have h1 : (sortRanked (buildRanked l)).Perm (buildRanked l) :=
    List.perm_insertionSort rankLE (buildRanked l)
  have h2 := h1.map Ranked.original
  rwa [show (buildRanked l).map Ranked.original = l from
    map_original_buildRankedFrom 0 l] at h2

theorem mem_buildRankedFrom {x : Ranked} :
    ∀ {i : Nat} {l : List Chapter}, x ∈ buildRankedFrom i l →
      ∃ j c, i ≤ j ∧ c ∈ l ∧ x = mkRanked j c := by
  intro i l
  induction l generalizing i with
  | nil => intro h; simp [buildRankedFrom] at h
  | cons c rest ih =>
    intro h
    rcases List.mem_cons.mp h with h | h
    · exact ⟨i, c, Nat.le_refl i, List.mem_cons_self c rest, h⟩
    · rcases ih h with ⟨j, c', hij, hc', hx⟩
      exact ⟨j, c', by omega, List.mem_cons_of_mem c hc', hx⟩

theorem coh_of_mem_buildRanked {x : Ranked} {l : List Chapter} (h : x ∈ buildRanked l) :
    x.url_num = urlNumOf x.original ∧ x.chapter_num = chapNumOf x.original ∧
    x.priority = prioOf x.original ∧ x.sequence = seqOf x.original := by
  rcases mem_buildRankedFrom h with ⟨j, c, _, _, rfl⟩
  exact ⟨rfl, rfl, rfl, rfl⟩

theorem rankLE_mkRanked {i j : Nat} {a b : Chapter} (hab : chapLE a b) (hij : i ≤ j) :
    rankLE (mkRanked i a) (mkRanked j b) := by
  unfold chapLE at hab
  unfold rankLE mkRanked
  simp only
  omega

theorem chapLE_of_rankLE {a b : Ranked}
    (ha : a.url_num = urlNumOf a.original ∧ a.chapter_num = chapNumOf a.original ∧
      a.priority = prioOf a.original ∧ a.sequence = seqOf a.original)
    (hb : b.url_num = urlNumOf b.original ∧ b.chapter_num = chapNumOf b.original ∧
      b.priority = prioOf b.original ∧ b.sequence = seqOf b.original)
    (h : rankLE a b) : chapLE a.original b.original := by
  obtain ⟨ha1, ha2, ha3, ha4⟩ := ha
  obtain ⟨hb1, hb2, hb3, hb4⟩ := hb
  unfold rankLE at h
  unfold chapLE
  rw [ha1, ha2, ha3, ha4, hb1, hb2, hb3, hb4] at h
  omega

theorem sortRanked_pairwise (l : List Ranked) : (sortRanked l).Pairwise rankLE :=
  List.sorted_insertionSort rankLE l

theorem process_pairwise_chapLE (l : List Chapter) :
    (process_and_sort_chapters l).Pairwise chapLE := by
  rw [process_eq]
  rw [List.pairwise_map]
  refine (sortRanked_pairwise (buildRanked l)).imp_of_mem ?_
  intro a b ha hb hab
  have hma : a ∈ buildRanked l :=
    (List.mem_insertionSort rankLE).mp ha
  have hmb : b ∈ buildRanked l :=
    (List.mem_insertionSort rankLE).mp hb
  exact chapLE_of_rankLE (coh_of_mem_buildRanked hma) (coh_of_mem_buildRanked hmb) hab

theorem pairwise_buildRankedFrom :
    ∀ (i : Nat) {l : List Chapter}, l.Pairwise chapLE → (buildRankedFrom i l).Pairwise rankLE := by
  intro i l
  induction l generalizing i with
  | nil => intro _; exact List.Pairwise.nil
  | cons c rest ih =>
    intro h
    rcases List.pairwise_cons.mp h with ⟨hhead, htail⟩
    refine List.pairwise_cons.mpr ⟨?_, ih (i + 1) htail⟩
    intro y hy
    rcases mem_buildRankedFrom hy with ⟨j, c', hij, hc', rfl⟩
    exact rankLE_mkRanked (hhead c' hc') (by omega)

theorem chapLT_of_chapLE_ne {c d : Chapter} (h : chapLE c d) (hne : ¬ sameSortKey c d) :
    chapLT c d := by
  unfold chapLE at h
  unfold sameSortKey at hne
  unfold chapLT
  omega

instance : ∀ c d, Decidable (sameSortKey c d) := fun c d => by
  unfold sameSortKey; infer_instance

/-! ## Claims about the Chapter Ordering Engine -/

/-- Claim C1, counterexample.  The claim states that an absent location ordinal
sorts as plus infinity, i.e. after every present ordinal.  The code substitutes
the finite sentinel 999999, so a candidate whose URL carries the ordinal
1000000 sorts AFTER a candidate with no location ordinal at all, while the
claim places it before. -/
theorem c1_key_precedence_counterexample :
    urlNumOf ⟨"".toList, "/1000000.html".toList⟩ = some 1000000 ∧
    urlNumOf ⟨"x".toList, "".toList⟩ = none ∧
    process_and_sort_chapters
        [⟨"".toList, "/1000000.html".toList⟩, ⟨"x".toList, "".toList⟩] =
      [⟨"x".toList, "".toList⟩, ⟨"".toList, "/1000000.html".toList⟩] := by
  decide

/-- Claim C1, amended.  The ordering engine sorts ascending by exactly the key
precedence locationOrdinal, then titleOrdinal, then negated priority, then
specialSequence, then originalPosition, where an ABSENT ordinal is replaced by
the sentinel 999999 (not by plus infinity): the internal ranked array is
pairwise ordered by that exact five-part key (`rankLE`); consequently on the
output any earlier candidate's present location ordinal is at most any later
candidate's present location ordinal; and on the specification's example the
`.../3.html` candidate precedes the `.../5.html` one regardless of titles. -/
theorem c1_key_precedence_amended :
    (∀ l : List Chapter, (sortRanked (buildRanked l)).Pairwise rankLE) ∧
    (∀ l : List Chapter, (process_and_sort_chapters l).Pairwise
      (fun c d => ∀ m n, urlNumOf c = some m → urlNumOf d = some n → m ≤ n)) ∧
    process_and_sort_chapters
        [⟨"Intro".toList, "b/5.html".toList⟩, ⟨"第一章".toList, "b/3.html".toList⟩] =
      [⟨"第一章".toList, "b/3.html".toList⟩, ⟨"Intro".toList, "b/5.html".toList⟩] := by
  refine ⟨fun l => sortRanked_pairwise (buildRanked l), fun l => ?_, by decide⟩
  refine (process_pairwise_chapLE l).imp ?_
  intro c d h m n hm hn
  unfold chapLE at h
  rw [hm, hn] at h
  simp only [Option.getD_some] at h
  omega

/-- Claim C2, counterexample.  Ordering is NOT invariant under permutation of
the input: two candidates with no numeric signals at all tie on every key
component except the original position, so the two orders of the same
two-candidate set produce different output sequences. -/
theorem c2_permutation_invariance_counterexample :
    ([⟨"ab".toList, "".toList⟩, ⟨"cd".toList, "".toList⟩] : List Chapter).Perm
      [⟨"cd".toList, "".toList⟩, ⟨"ab".toList, "".toList⟩] ∧
    process_and_sort_chapters [⟨"ab".toList, "".toList⟩, ⟨"cd".toList, "".toList⟩] ≠
      process_and_sort_chapters [⟨"cd".toList, "".toList⟩, ⟨"ab".toList, "".toList⟩] := by
  decide

/-- Claim C2, amended.  The ordering function is deterministic, and it is
permutation-invariant for candidate sets in which no two candidates share the
same position-independent key quadruple (location ordinal and title ordinal
after sentinel substitution, priority, special sequence); ties in that
quadruple are broken by original position, so only then can permuted inputs
produce different outputs. -/
theorem c2_permutation_invariance_amended :
    ∀ l₁ l₂ : List Chapter, l₁.Perm l₂ →
      l₁.Pairwise (fun c d => ¬ sameSortKey c d) →
      process_and_sort_chapters l₁ = process_and_sort_chapters l₂ := by
  intro l₁ l₂ hp hd
  have hsymm : ∀ {x y : Chapter}, ¬ sameSortKey x y → ¬ sameSortKey y x := by
    intro x y h hxy
    exact h (by unfold sameSortKey at hxy ⊢; omega)
  have perm12 : (process_and_sort_chapters l₁).Perm (process_and_sort_chapters l₂) :=
    (process_perm l₁).trans (hp.trans (process_perm l₂).symm)
  have ne1 : (process_and_sort_chapters l₁).Pairwise (fun c d => ¬ sameSortKey c d) :=
    hd.perm (process_perm l₁).symm hsymm
  have ne2 : (process_and_sort_chapters l₂).Pairwise (fun c d => ¬ sameSortKey c d) :=
    (hd.perm hp hsymm).perm (process_perm l₂).symm hsymm
  have lt1 : (process_and_sort_chapters l₁).Pairwise chapLT :=
    ((process_pairwise_chapLE l₁).and ne1).imp fun h => chapLT_of_chapLE_ne h.1 h.2
  have lt2 : (process_and_sort_chapters l₂).Pairwise chapLT :=
    ((process_pairwise_chapLE l₂).and ne2).imp fun h => chapLT_of_chapLE_ne h.1 h.2
  exact List.eq_of_perm_of_sorted perm12 lt1 lt2

/-- Witness for claim C2: a concrete two-candidate set with distinct location
ordinals, handed to the amended theorem in both orders. -/
theorem c2_permutation_invariance_witness :
    process_and_sort_chapters [⟨"x".toList, "/2.html".toList⟩, ⟨"y".toList, "/1.html".toList⟩] =
      process_and_sort_chapters
        [⟨"y".toList, "/1.html".toList⟩, ⟨"x".toList, "/2.html".toList⟩] :=
  c2_permutation_invariance_amended _ _ (by decide) (by decide)

/-- Claim C3, confirmed.  The ordering function is idempotent: re-sorting its
own output reproduces it, because the output is already weakly ordered by the
position-independent key part and re-enumeration assigns strictly increasing
original positions. -/
theorem c3_order_idempotent (l : List Chapter) :
    process_and_sort_chapters (process_and_sort_chapters l) =
      process_and_sort_chapters l := by
  have hs : (buildRanked (process_and_sort_chapters l)).Pairwise rankLE :=
    pairwise_buildRankedFrom 0 (process_pairwise_chapLE l)
  rw [process_eq (process_and_sort_chapters l),
    show sortRanked (buildRanked (process_and_sort_chapters l)) =
        buildRanked (process_and_sort_chapters l) from
      List.Sorted.insertionSort_eq hs]
  exact map_original_buildRankedFrom 0 _

/-- Claim C10, confirmed.  The output of the ordering engine is a permutation
of its input — same length, same multiset of candidates; nothing is dropped,
duplicated or modified. -/
theorem c10_order_is_permutation (l : List Chapter) :
    (process_and_sort_chapters l).Perm l ∧
      (process_and_sort_chapters l).length = l.length :=
  ⟨process_perm l, (process_perm l).length_eq⟩

/-! ## Claim about the Chapter Index Resolver result on zero candidates -/

/-- Claim C4, counterexample.  With zero collected candidates the resolver does
NOT return null: its non-exceptional tail always wraps the (empty) sorted list
into an index, here with the default sentinel name and author. -/
theorem c4_empty_resolve_counterexample :
    crawl_index_page_result "未知小说".toList "未知作者".toList [] ≠ none ∧
    crawl_index_page_result "未知小说".toList "未知作者".toList [] =
      some ⟨"未知小说".toList, "未知作者".toList, []⟩ := by
  decide

/-- Claim C4, amended.  On a listing page yielding zero candidates the resolver
returns an index whose chapter list is EMPTY (null arises only from the
exception handler around fetching); the caller still falls back to linked-list
mode, because mode selection tests the chapter list for emptiness. -/
theorem c4_empty_resolve_amended :
    ∀ n a : List Char,
      crawl_index_page_result n a [] = some ⟨n, a, []⟩ ∧
      selectMode (crawl_index_page_result n a []) = CrawlMode.linkedList := by
  intro n a
  exact ⟨rfl, rfl⟩

/-! ## Claim about linked-list walk termination on a cycle -/

/-- Walk state at the start: entry page `/1.html`, nothing crawled. -/
def walkW0 : WalkState := ⟨"/1.html".toList, [], [], 0⟩

/-- Walk state after crawling `/1.html`. -/
def walkW1 : WalkState :=
  ⟨"/2.html".toList, ["/1.html".toList], [⟨"/1.html".toList, "/2.html".toList⟩], 1⟩

/-- Walk state after crawling `/1.html` and `/2.html`. -/
def walkW2 : WalkState :=
  ⟨"/3.html".toList, ["/1.html".toList, "/2.html".toList],
    [⟨"/1.html".toList, "/2.html".toList⟩, ⟨"/2.html".toList, "/3.html".toList⟩], 2⟩

/-- Walk state after crawling all three pages, back at `/1.html`; from here the
already-crawled skip branch loops forever through the cycle. -/
def walkW3 : WalkState :=
  ⟨"/1.html".toList, ["/1.html".toList, "/2.html".toList, "/3.html".toList],
    [⟨"/1.html".toList, "/2.html".toList⟩, ⟨"/2.html".toList, "/3.html".toList⟩,
      ⟨"/3.html".toList, "/1.html".toList⟩], 3⟩

/-- The spinning state at `/2.html`. -/
def walkW4 : WalkState := { walkW3 with current := "/2.html".toList }

/-- The spinning state at `/3.html`. -/
def walkW5 : WalkState := { walkW3 with current := "/3.html".toList }

theorem walkStep_w0 : walkStep cycleSite 999 walkW0 = .next walkW1 := by decide

theorem walkStep_w1 : walkStep cycleSite 999 walkW1 = .next walkW2 := by decide

theorem walkStep_w2 : walkStep cycleSite 999 walkW2 = .next walkW3 := by decide

theorem walkStep_w3 : walkStep cycleSite 999 walkW3 = .next walkW4 := by decide

theorem walkStep_w4 : walkStep cycleSite 999 walkW4 = .next walkW5 := by decide

theorem walkStep_w5 : walkStep cycleSite 999 walkW5 = .next walkW3 := by decide

theorem walkCycleNone : ∀ n : Nat,
    walkRun cycleSite 999 n walkW3 = none ∧
    walkRun cycleSite 999 n walkW4 = none ∧
    walkRun cycleSite 999 n walkW5 = none := by
  intro n
  induction n with
  | zero => exact ⟨rfl, rfl, rfl⟩
  | succ n ih =>
    refine ⟨?_, ?_, ?_⟩
    · simp only [walkRun, walkStep_w3]; exact ih.2.1
    · simp only [walkRun, walkStep_w4]; exact ih.2.2
    · simp only [walkRun, walkStep_w5]; exact ih.1

/-- Claim C5.  On the cyclic chain `/1.html → /2.html → /3.html → /1.html`,
with the default unbounded budget (`num_chapters = 0`, so 999), the walk loop
of `crawl_multiple_chapters` never leaves its `while` loop: after crawling the
three pages it re-enters the already-crawled skip branch, which forwards
through the stored next references `A→B→C→A` forever without incrementing
`count` — for every number of loop iterations the loop is still running.  (No
page is ever re-fetched, but the walk does not stop at C as the specification
requires; it does not terminate at all.) -/
theorem c5_linked_list_cycle_nontermination :
    ∀ fuel : Nat, walkRun cycleSite (chaptersToCrawl 0) fuel walkW0 = none := by
  intro fuel
  rw [show chaptersToCrawl 0 = 999 from rfl]
  match fuel with
  | 0 => rfl
  | 1 => decide
  | 2 => decide
  | n + 3 =>
    simp only [walkRun, walkStep_w0, walkStep_w1, walkStep_w2]
    exact (walkCycleNone n).1

/-! ## Claim about the Link Classifier blocklist rule -/

theorem containsSub_of_infix {t w : List Char} (h : w <:+: t) : containsSub t w = true := by
  rcases List.infix_iff_prefix_suffix.mp h with ⟨s, hpre, hsuf⟩
  unfold containsSub
  refine List.any_eq_true.mpr ⟨s, ?_, ?_⟩
  · exact (List.mem_tails s t).mpr hsuf
  · exact List.isPrefixOf_iff_prefix.mpr hpre

theorem infix_dropWhile_of_no_space {w : List Char} (hw : w ≠ [])
    (hns : ∀ c ∈ w, pySpace c = false) :
    ∀ {l : List Char}, w <:+: l → w <:+: l.dropWhile pySpace := by
  intro l
  induction l with
  | nil => intro h; rw [List.infix_nil.mp h] at hw; exact absurd rfl hw
  | cons c rest ih =>
    intro h
    rw [List.dropWhile_cons]
    by_cases hc : pySpace c
    · rw [if_pos hc]
      rcases List.infix_cons_iff.mp h with h | h
      · exfalso
        cases w with
        | nil => exact hw rfl
        | cons d ds =>
          have hd : d = c := (List.cons_prefix_cons.mp h).1
          have := hns d (List.mem_cons_self d ds)
          rw [hd, hc] at this
          exact Bool.true_eq_false.mp this
      · exact ih h
    · rw [if_neg hc]; exact h

theorem infix_pyStrip_of_no_space {w l : List Char} (hw : w ≠ [])
    (hns : ∀ c ∈ w, pySpace c = false) (h : w <:+: l) : w <:+: pyStrip l := by
  have h1 : w <:+: l.dropWhile pySpace := infix_dropWhile_of_no_space hw hns h
  have h2 : w.reverse <:+: (l.dropWhile pySpace).reverse := h1.reverse
  have hwr : w.reverse ≠ [] := by
    intro hcon
    exact hw (by simpa using congrArg List.reverse hcon)
  have hnsr : ∀ c ∈ w.reverse, pySpace c = false := by
    intro c hc; exact hns c (List.mem_reverse.mp hc)
  have h3 : w.reverse <:+: ((l.dropWhile pySpace).reverse).dropWhile pySpace :=
    infix_dropWhile_of_no_space hwr hnsr h2
  have h4 := h3.reverse
  rw [List.reverse_reverse] at h4
  exact h4

theorem blocklist_rejects {title href w : List Char} (hwb : w ∈ blockWords) (hw : w ≠ [])
    (hns : ∀ c ∈ w, pySpace c = false) (hinf : w <:+: title) :
    is_likely_chapter_link title href = (false, "非章节关键词") := by
  have h1 : w <:+: pyStrip title := infix_pyStrip_of_no_space hw hns hinf
  have h2 : blockWords.any (fun v => containsSub (pyStrip title) v) = true :=
    List.any_eq_true.mpr ⟨w, hwb, containsSub_of_infix h1⟩
  unfold is_likely_chapter_link
  simp only [h2, if_true]

/-- Claim C6, confirmed.  The blocklist rule is evaluated first: whenever the
visible text contains one of the five navigational words named by the
specification (登录, 注册, 首页, 设置, 帮助), the link is classified as not a
chapter with the blocklist reason — regardless of the target reference, and in
particular even when the text also matches a chapter-number pattern or the
reference ends in a numeric page file. -/
theorem c6_blocklist_first :
    ∀ title href w : List Char,
      w ∈ ["登录".toList, "注册".toList, "首页".toList, "设置".toList, "帮助".toList] →
      w <:+: title →
      is_likely_chapter_link title href = (false, "非章节关键词") := by
  intro title href w hw hinf
  simp only [List.mem_cons, List.not_mem_nil, or_false] at hw
  rcases hw with rfl | rfl | rfl | rfl | rfl
  · exact blocklist_rejects (by decide) (by decide) (by decide) hinf
  · exact blocklist_rejects (by decide) (by decide) (by decide) hinf
  · exact blocklist_rejects (by decide) (by decide) (by decide) hinf
  · exact blocklist_rejects (by decide) (by decide) (by decide) hinf
  · exact blocklist_rejects (by decide) (by decide) (by decide) hinf

/-- Witness for claim C6: the text 登录第1章 contains the blocklisted 登录, yet
also matches the chapter-marker pattern, and the target `/3.html` has a numeric
page-file suffix; the classifier still rejects it with the blocklist reason. -/
theorem c6_blocklist_first_witness :
    is_likely_chapter_link "登录第1章".toList "/3.html".toList = (false, "非章节关键词") ∧
    hasMarkerPattern (pyStrip "登录第1章".toList) = true ∧
    (urlTailNum "/3.html".toList).isSome = true :=
  ⟨c6_blocklist_first "登录第1章".toList "/3.html".toList "登录".toList
      (by decide) (by decide),
    by decide, by decide⟩

/-! ## Claim about title-ordinal extraction -/

theorem chNumMap_isDigit_eq_false {c : Char} {v : Nat} (h : chNumMap c = some v) :
    c.isDigit = false := by
  unfold chNumMap at h
  by_cases h1 : c = '一'
  · rw [h1]; decide
  rw [if_neg h1] at h
  by_cases h2 : c = '二'
  · rw [h2]; decide
  rw [if_neg h2] at h
  by_cases h3 : c = '三'
  · rw [h3]; decide
  rw [if_neg h3] at h
  by_cases h4 : c = '四'
  · rw [h4]; decide
  rw [if_neg h4] at h
  by_cases h5 : c = '五'
  · rw [h5]; decide
  rw [if_neg h5] at h
  by_cases h6 : c = '六'
  · rw [h6]; decide
  rw [if_neg h6] at h
  by_cases h7 : c = '七'
  · rw [h7]; decide
  rw [if_neg h7] at h
  by_cases h8 : c = '八'
  · rw [h8]; decide
  rw [if_neg h8] at h
  by_cases h9 : c = '九'
  · rw [h9]; decide
  rw [if_neg h9] at h
  by_cases h10 : c = '十'
  · rw [h10]; decide
  rw [if_neg h10] at h
  by_cases h11 : c = '百'
  · rw [h11]; decide
  rw [if_neg h11] at h
  by_cases h12 : c = '千'
  · rw [h12]; decide
  rw [if_neg h12] at h
  by_cases h13 : c = '万'
  · rw [h13]; decide
  rw [if_neg h13] at h
  by_cases h14 : c = '零'
  · rw [h14]; decide
  rw [if_neg h14] at h
  exact absurd h (by simp)

/-- Claim C7, counterexample.  Arabic-numeral extraction is not exact: the
leading-number regex gives back `2` (the final digit) for the title
`12. Title`; and a title that contains a complex-numeral marker preceded by a
simpler one gets the earlier marker's value, not the fallback 999. -/
theorem c7_title_ordinal_counterexample :
    extract_chapter_number "12. Title".toList = some 2 ∧
    extract_chapter_number "12. Title".toList ≠ some 12 ∧
    extract_chapter_number "第1章第二十章".toList = some 1 ∧
    extract_chapter_number "第1章第二十章".toList ≠ some 999 := by
  decide

/-- Claim C7, amended.  For the first (leftmost) `第X章` marker of a title, the
extracted ordinal is exact when X is written in Arabic digits, when X is a
single mapped CJK numeral, and when X is `十` followed by a mapped numeral; any
other CJK numeral in the first marker (a "complex" one such as 二十) maps to
the fallback 999 — present, not absent.  For a bare leading number, only the
final digit of the leading run is extracted (exact only for a single digit, cf.
the counterexample).  A title matching none of the three patterns yields an
absent ordinal. -/
theorem c7_title_ordinal_amended :
    (∀ t g, markerGroup t = some g → g.all Char.isDigit = true →
      extract_chapter_number t = some (natOfDigits g)) ∧
    (∀ t c v, markerGroup t = some [c] → chNumMap c = some v →
      extract_chapter_number t = some v) ∧
    (∀ t c v, markerGroup t = some ['十', c] → chNumMap c = some v →
      extract_chapter_number t = some (10 + v)) ∧
    (∀ t g, markerGroup t = some g → (∀ c ∈ g, (chNumMap c).isSome = true) →
      2 ≤ g.length → ¬(g.length = 2 ∧ g.head? = some '十') →
      extract_chapter_number t = some 999) ∧
    (∀ t, markerGroup t = none → digitsBeforeZhang t = none →
      leadingNumGroup t = none → extract_chapter_number t = none) := by
  refine ⟨?_, ?_, ?_, ?_, ?_⟩
  · intro t g hm ha
    unfold extract_chapter_number
    simp only [hm, ha, if_true]
  · intro t c v hm hc
    unfold extract_chapter_number
    have hd : ([c]).all Char.isDigit = false := by
      simp [chNumMap_isDigit_eq_false hc]
    simp only [hm, hd, Bool.false_eq_true, if_false, singleCjk, hc]
  · intro t c v hm hc
    unfold extract_chapter_number
    have hd : (['十', c]).all Char.isDigit = false := by
      simp [chNumMap_isDigit_eq_false hc, show ('十').isDigit = false from by decide]
    simp [hm, hd, singleCjk, tenCjk, hc]
  · intro t g hm hall hlen hten
    unfold extract_chapter_number
    match g, hlen with
    | a :: b :: rest, _ =>
      have hda : a.isDigit = false := by
        have := hall a (List.mem_cons_self a (b :: rest))
        rcases Option.isSome_iff_exists.mp this with ⟨v, hv⟩
        exact chNumMap_isDigit_eq_false hv
      have hd : ((a :: b :: rest).all Char.isDigit) = false := by
        simp [hda]
      have hsingle : singleCjk (a :: b :: rest) = none := rfl
      cases rest with
      | nil =>
        have hna : a ≠ '十' := by
          intro hcon
          exact hten ⟨rfl, by rw [hcon]; rfl⟩
        have hten2 : tenCjk [a, b] = none := by simp [tenCjk, hna]
        simp only [hm, hd, Bool.false_eq_true, if_false, hsingle, hten2]
      | cons r rs =>
        have hten2 : tenCjk (a :: b :: r :: rs) = none := rfl
        simp only [hm, hd, Bool.false_eq_true, if_false, hsingle, hten2]
  · intro t h1 h2 h3
    unfold extract_chapter_number
    simp only [h1, h2, h3]

/-- Witness for claim C7: the four marker branches and the no-pattern branch of
the amended theorem applied at concrete titles. -/
theorem c7_title_ordinal_witness :
    extract_chapter_number "第12章".toList = some 12 ∧
    extract_chapter_number "第五章".toList = some 5 ∧
    extract_chapter_number "第十三章".toList = some 13 ∧
    extract_chapter_number "第二十五章".toList = some 999 ∧
    extract_chapter_number "hello".toList = none := by
  refine ⟨?_, ?_, ?_, ?_, ?_⟩
  · have h := c7_title_ordinal_amended.1 "第12章".toList ['1', '2'] (by decide) (by decide)
    rw [show natOfDigits ['1', '2'] = 12 from rfl] at h
    exact h
  · exact c7_title_ordinal_amended.2.1 "第五章".toList '五' 5 (by decide) (by decide)
  · exact c7_title_ordinal_amended.2.2.1 "第十三章".toList '三' 3 (by decide) (by decide)
  · exact c7_title_ordinal_amended.2.2.2.1 "第二十五章".toList ['二', '十', '五']
      (by decide) (by decide) (by decide) (by decide)
  · exact c7_title_ordinal_amended.2.2.2.2 "hello".toList (by decide) (by decide) (by decide)

/-! ## Claim about the minimum-content gate of `crawl_chapter` -/

theorem pyStrip_length_le (l : List Char) : (pyStrip l).length ≤ l.length := by
  simp only [pyStrip, List.length_reverse]
  calc ((l.dropWhile pySpace).reverse.dropWhile pySpace).length
      ≤ (l.dropWhile pySpace).reverse.length := (List.dropWhile_sublist _).length_le
    _ = (l.dropWhile pySpace).length := List.length_reverse _
    _ ≤ l.length := (List.dropWhile_sublist _).length_le

/-- Claim C8, confirmed.  A fetched page whose extracted body text is absent or
shorter than 20 characters yields no chapter record — the validation gate of
`crawl_chapter` returns none, exactly as for a failed fetch; and a none result
contributes nothing to the accumulated chapter data while the remaining results
are still collected, so the per-chapter failure does not abort the run. -/
theorem c8_min_content_gate :
    (∀ content : List Char, content = [] ∨ content.length < 20 →
      crawl_chapter_validate content = none) ∧
    (∀ (acc : List (List Char)) (rs : List (Option (List Char))),
      collectResults acc (none :: rs) = collectResults acc rs) := by
  constructor
  · intro content h
    unfold crawl_chapter_validate
    rw [if_pos]
    rcases h with h | h
    · exact Or.inl h
    · exact Or.inr (lt_of_le_of_lt (pyStrip_length_le content) h)
  · intro acc rs
    rfl

/-- Witness for claim C8: a five-character body is rejected, and a none result
between collected results is skipped. -/
theorem c8_min_content_gate_witness :
    crawl_chapter_validate "short".toList = none ∧
    collectResults ([] : List (List Char)) [none, some "x".toList] =
      collectResults [] [some "x".toList] :=
  ⟨c8_min_content_gate.1 "short".toList (Or.inr (by decide)),
    c8_min_content_gate.2 [] [some "x".toList]⟩

/-! ## Claim about the directory-page classifier -/

theorem digitsHtmlEnd_no_slash {rest : List Char} (h : digitsHtmlEnd rest = true) :
    '/' ∉ rest := by
  intro hm
  unfold digitsHtmlEnd at h
  rw [Bool.and_eq_true] at h
  obtain ⟨h1, h2⟩ := h
  have hsplit := List.takeWhile_append_dropWhile (p := Char.isDigit) (l := rest)
  rw [← hsplit] at hm
  rcases List.mem_append.mp hm with hm | hm
  · exact absurd (List.mem_takeWhile_imp hm) (by decide)
  · rw [show rest.dropWhile Char.isDigit = ".html".toList from by simpa using h2] at hm
    exact absurd hm (by decide)

theorem afterLastSlash_cons_of_mem {c : Char} {rest : List Char} (h : '/' ∈ rest) :
    afterLastSlash (c :: rest) = afterLastSlash rest := by
  have hstep : afterLastSlash (c :: rest) =
      if c = '/' then (if '/' ∈ rest then afterLastSlash rest else rest)
      else (if '/' ∈ rest then afterLastSlash rest else c :: rest) := rfl
  rw [hstep]
  by_cases hc : c = '/' <;> simp [hc, h]

theorem urlTailNum_isSome_iff (url : List Char) :
    (urlTailNum url).isSome = true ↔
      ('/' ∈ url ∧ digitsHtmlEnd (afterLastSlash url) = true) := by
  induction url with
  | nil => simp [urlTailNum]
  | cons c rest ih =>
    unfold urlTailNum
    by_cases hc : (c = '/' && digitsHtmlEnd rest) = true
    · rw [if_pos hc]
      rw [Bool.and_eq_true] at hc
      obtain ⟨hc1, hc2⟩ := hc
      have hc1' : c = '/' := by simpa using hc1
      subst hc1'
      have hns : '/' ∉ rest := digitsHtmlEnd_no_slash hc2
      simp only [Option.isSome_some, true_iff]
      refine ⟨List.mem_cons_self _ _, ?_⟩
      rw [show afterLastSlash ('/' :: rest) = rest from by simp [afterLastSlash, hns]]
      exact hc2
    · rw [if_neg hc, ih]
      by_cases hm : '/' ∈ rest
      · rw [afterLastSlash_cons_of_mem hm]
        simp [List.mem_cons, hm]
      · constructor
        · rintro ⟨h1, _⟩
          exact absurd h1 hm
        · rintro ⟨h1, h2⟩
          rcases List.mem_cons.mp h1 with h1 | h1
          · exfalso
            subst h1
            rw [show afterLastSlash ('/' :: rest) = rest from by
              simp [afterLastSlash, hm]] at h2
            simp [h2] at hc
          · exact absurd h1 hm

theorem isPrefixChars_iff : ∀ p l : List Char, isPrefixChars p l = true ↔ ∃ t, l = p ++ t := by
  intro p
  induction p with
  | nil => intro l; simp [isPrefixChars]
  | cons a ps ih =>
    intro l
    cases l with
    | nil => simp [isPrefixChars]
    | cons b bs =>
      simp only [isPrefixChars, Bool.and_eq_true, beq_iff_eq, ih, List.cons_append,
        List.cons.injEq]
      constructor
      · rintro ⟨rfl, t, rfl⟩
        exact ⟨t, rfl, rfl⟩
      · rintro ⟨t, rfl, rfl⟩
        exact ⟨rfl, t, rfl⟩

theorem listEndsWith_iff (l s : List Char) : listEndsWith l s = true ↔ ∃ t, l = t ++ s := by
  unfold listEndsWith
  rw [isPrefixChars_iff]
  constructor
  · rintro ⟨t, ht⟩
    refine ⟨t.reverse, ?_⟩
    have h2 := congrArg List.reverse ht
    simpa [List.reverse_append] using h2
  · rintro ⟨t, rfl⟩
    exact ⟨t.reverse, by simp [List.reverse_append]⟩

theorem urlTailNum_isSome_shape :
    ∀ {url : List Char}, (urlTailNum url).isSome = true →
      listEndsWith url ".html".toList = true ∧ listEndsWith url ['/'] = false := by
  intro url
  induction url with
  | nil => intro h; simp [urlTailNum] at h
  | cons c rest ih =>
    intro h
    unfold urlTailNum at h
    by_cases hc : (c = '/' && digitsHtmlEnd rest) = true
    · rw [Bool.and_eq_true] at hc
      obtain ⟨hc1, hc2⟩ := hc
      have hc1' : c = '/' := by simpa using hc1
      subst hc1'
      unfold digitsHtmlEnd at hc2
      rw [Bool.and_eq_true] at hc2
      obtain ⟨_, hd2⟩ := hc2
      have hsplit : rest = rest.takeWhile Char.isDigit ++ ".html".toList := by
        conv_lhs => rw [← List.takeWhile_append_dropWhile (p := Char.isDigit) (l := rest)]
        rw [show rest.dropWhile Char.isDigit = ".html".toList from by simpa using hd2]
      constructor
      · rw [listEndsWith_iff]
        exact ⟨'/' :: rest.takeWhile Char.isDigit, by rw [List.cons_append, ← hsplit]⟩
      · rcases Bool.eq_false_or_eq_true (listEndsWith ('/' :: rest) ['/']) with ht | hf
        · exfalso
          rw [listEndsWith_iff] at ht
          obtain ⟨t, ht⟩ := ht
          have h1 := congrArg List.reverse ht
          rw [hsplit] at h1
          simp only [List.reverse_cons, List.reverse_append] at h1
          have h3 := congrArg List.head? h1
          simp at h3
        · exact hf
    · rw [if_neg hc] at h
      obtain ⟨e1, e2⟩ := ih h
      constructor
      · rw [listEndsWith_iff] at e1 ⊢
        obtain ⟨t, rfl⟩ := e1
        exact ⟨c :: t, rfl⟩
      · rcases Bool.eq_false_or_eq_true (listEndsWith (c :: rest) ['/']) with ht | hf
        · exfalso
          rw [listEndsWith_iff] at ht
          obtain ⟨t, ht⟩ := ht
          cases t with
          | nil =>
            rw [List.nil_append] at ht
            have hrest : rest = [] := by
              have := congrArg List.tail ht
              simpa using this
            rw [listEndsWith_iff] at e1
            obtain ⟨t', ht'⟩ := e1
            rw [hrest] at ht'
            exact absurd (congrArg List.length ht') (by simp)
          | cons d ds =>
            rw [List.cons_append] at ht
            have hrest : rest = ds ++ ['/'] := ((List.cons.injEq _ _ _ _).mp ht).2
            have he : listEndsWith rest ['/'] = true := (listEndsWith_iff _ _).mpr ⟨ds, hrest⟩
            rw [he] at e2
            exact Bool.true_eq_false.mp e2
        · exact hf

theorem is_directory_page_false_iff (url : List Char) :
    is_directory_page url = false ↔ (urlTailNum url).isSome = true := by
  unfold is_directory_page
  by_cases h1 : (listEndsWith url ['/'] || !listEndsWith url ".html".toList) = true
  · rw [if_pos h1]
    constructor
    · intro hcontra
      exact absurd hcontra (by simp)
    · intro hs
      exfalso
      obtain ⟨e1, e2⟩ := urlTailNum_isSome_shape hs
      rw [e1, e2] at h1
      simp at h1
  · rw [if_neg h1]
    by_cases h2 : (urlTailNum url).isSome = true
    · rw [if_pos h2]
      simp [h2]
    · rw [if_neg h2]
      simp [h2]

/-- Claim C9, counterexample.  The claim classifies a URL as a chapter page
exactly when its final path segment is purely numeric plus `.html`; but for the
URL `123.html`, whose final path segment (the whole reference — it contains no
slash) is purely numeric plus `.html`, the code still classifies it as a
directory page, because the regex `/\d+\.html$` requires a literal slash. -/
theorem c9_directory_iff_counterexample :
    digitsHtmlEnd (afterLastSlash "123.html".toList) = true ∧
    is_directory_page "123.html".toList = true := by
  decide

/-- Claim C9, amended.  `is_directory_page` returns false (chapter page)
exactly when the URL CONTAINS a slash and the part after its last slash is a
nonempty run of digits followed by `.html`; every other URL — including one
ending in a non-numeric `.html` name, one ending in `/`, and a slashless
numeric `123.html` — is classified as a directory page. -/
theorem c9_directory_iff_amended (url : List Char) :
    is_directory_page url = false ↔
      ('/' ∈ url ∧ digitsHtmlEnd (afterLastSlash url) = true) := by
  rw [is_directory_page_false_iff, urlTailNum_isSome_iff]

end NovelCrawler
